/-
  Verification of the MHS per-order calculator (app.py).

  The computational core of the repository is embedded shallowly over ℚ:
  Python floats become rationals, Python ints become integers, the two
  commodity lookup dictionaries become association lists with
  last-write-wins lookup, and Python round(x, ndigits) (round-half-to-even) becomes
  pyRound.
-/
import Mathlib

namespace MHS

/-! ### Constants (app.py lines 13-25) -/

def MAX_INBOUND_DOORS : ℤ := 6
def MAX_OUTBOUND_DOORS : ℤ := 7
def PNA_LIMIT_PER_LANE_CPM : ℚ := 19
def PNA_MERGE_LIMIT_CPM : ℚ := 40
def INCHSTORE_LIMIT_PER_LANE : ℚ := 42
def INDUCT_WORKER_CPM : ℚ := 12
def SORT_WORKER_CPM : ℚ := 5
def MIN_CELL_GAP_IN : ℚ := 3
def FORKLIFT_PALLETS_PER_MIN : ℚ := 1

/-! ### RateModel (app.py lines 29-49) -/

/-- Embeds `cell_rate_per_lane_cpm` from app.py: cases/min/lane from the cell,
speed divided by feet-per-case, with the 3-inch gap minimum enforced. -/
def cell_rate_per_lane_cpm (cell_speed_fpm box_len_in gap_in : ℚ) : ℚ :=
  let gap := max gap_in MIN_CELL_GAP_IN
  let ft_per_case := (box_len_in + gap) / 12
  if ft_per_case ≤ 0 then 0 else cell_speed_fpm / ft_per_case

/-- Embeds `changeover_minutes` from app.py: lanes ≤ 2 → 2, lanes ≥ 4 → 7,
lanes = 3 → 4. -/
def changeover_minutes (lanes_used : ℤ) : ℤ :=
  if lanes_used ≤ 2 then 2
  else if 4 ≤ lanes_used then 7
  else 4

/-! ### Python rounding

The Python built-in `round(x, ndigits)` rounds half to even. The app
stores its display fields with `round(·, 1)`; the timeline builder then
reads those stored fields back. -/

/-- Round a rational to the nearest integer, ties to even
(Python `round(x)`). -/
def pyRoundInt (x : ℚ) : ℤ :=
  let f := ⌊x⌋
  let r := x - (f : ℚ)
  if r < 1/2 then f
  else if 1/2 < r then f + 1
  else if 2 ∣ f then f else f + 1

/-- Python `round(x, ndigits)` on rationals. -/
def pyRound (ndigits : ℕ) (x : ℚ) : ℚ :=
  ((pyRoundInt (x * 10 ^ ndigits) : ℚ)) / 10 ^ ndigits

/-! ### Commodity catalog lookup (app.py lines 83-84)

`comm_to_len = dict(zip(comm_df["Commodity"], comm_df["Length_in"]))` and
similarly for speed. A Python dict built from a list of pairs keeps the
last binding for a duplicated key; `.get(k, d)` falls back to `d`. -/

/-- A catalog row: (commodity name, box length in inches, cell speed fpm). -/
def CatalogRow : Type := String × ℚ × ℚ

/-- Models `dict(pairs).get(key, dflt)`: the value of the last pair whose key
matches, else the default. -/
def dictGet (pairs : List (String × ℚ)) (key : String) (dflt : ℚ) : ℚ :=
  match pairs.reverse.find? (fun p => p.1 == key) with
  | some p => p.2
  | none => dflt

/-- Embeds `comm_to_len`: name → box length pairs of the catalog. -/
def comm_to_len (catalog : List CatalogRow) : List (String × ℚ) :=
  catalog.map (fun c => (c.1, c.2.1))

/-- Embeds `comm_to_cspd`: name → cell speed pairs of the catalog. -/
def comm_to_cspd (catalog : List CatalogRow) : List (String × ℚ) :=
  catalog.map (fun c => (c.1, c.2.2))

/-! ### Order input and result records -/

/-- One row of the orders table (app.py columns). -/
structure OrderInput where
  customer : String
  commodity : String
  pallets : ℤ
  casesPerPallet : ℤ
  inboundLanesUsed : ℤ
  workersPerLane : ℤ
  cellGap_in : ℚ

/-- The record produced by `compute_order_row`. Fields named like the
local variables of app.py hold the exact computed values; the `disp_`
fields hold the rounded values stored in the returned dict (these are
what the timeline loop reads back out of `out_df`). -/
structure OrderResult where
  customer : String
  commodity : String
  pallets : ℤ
  cpp : ℤ
  total_cases : ℚ
  lanes : ℤ
  wpl : ℤ
  gap_in : ℚ
  length_in : ℚ
  cspd_fpm : ℚ
  feed_per_lane_cpm : ℚ
  pna_lane_cpm : ℚ
  pna_total_cpm : ℚ
  cell_lane_cpm : ℚ
  lane_after_cell : ℚ
  post_cell_total : ℚ
  upstream_cap_cpm : ℚ
  sort_cap_cpm : ℚ
  system_cap_cpm : ℚ
  system_cap_cph : ℚ
  t_offload_min : ℚ
  t_process_min : ℚ
  t_load_min : ℚ
  t_cell_span_min : ℚ
  pna_eff : ℚ
  pna_merge_eff : ℚ
  treat_eff : ℚ
  chg_min : ℤ
  disp_t_offload : ℚ
  disp_t_process : ℚ
  disp_t_load : ℚ

/-- Embeds `compute_order_row` (app.py lines 135-215), with the commodity
catalog and the global `sort_workers` passed explicitly. -/
def compute_order_row (catalog : List CatalogRow) (sort_workers : ℤ)
    (row : OrderInput) : OrderResult :=
  let pallets := row.pallets
  let cpp := row.casesPerPallet
  let lanes := row.inboundLanesUsed
  let wpl := row.workersPerLane
  let gap_in := row.cellGap_in
  let total_cases : ℚ := ((pallets * cpp : ℤ) : ℚ)
  let length_in := dictGet (comm_to_len catalog) row.commodity 22.5
  let cspd_fpm := dictGet (comm_to_cspd catalog) row.commodity 13.0
  let feed_per_lane_cpm := (wpl : ℚ) * INDUCT_WORKER_CPM
  let pna_lane_cpm := min feed_per_lane_cpm PNA_LIMIT_PER_LANE_CPM
  let pna_total_cpm := (lanes : ℚ) * pna_lane_cpm
  let cell_lane_cpm := cell_rate_per_lane_cpm cspd_fpm length_in gap_in
  let lane_after_cell := min cell_lane_cpm INCHSTORE_LIMIT_PER_LANE
  let post_cell_total := (lanes : ℚ) * lane_after_cell
  let upstream_cap_cpm := min pna_total_cpm (min post_cell_total PNA_MERGE_LIMIT_CPM)
  let sort_cap_cpm := (sort_workers : ℚ) * SORT_WORKER_CPM
  let system_cap_cpm := min upstream_cap_cpm sort_cap_cpm
  let system_cap_cph := system_cap_cpm * 60
  let t_offload_min := (pallets : ℚ) / FORKLIFT_PALLETS_PER_MIN
  let t_process_min := total_cases / max system_cap_cpm (1e-9 : ℚ)
  let t_load_min := (pallets : ℚ) / FORKLIFT_PALLETS_PER_MIN
  let t_cell_span_min :=
    total_cases / max (min ((lanes : ℚ) * cell_lane_cpm) PNA_MERGE_LIMIT_CPM) (1e-9 : ℚ)
  let pna_eff := if 0 < PNA_LIMIT_PER_LANE_CPM then pna_lane_cpm / PNA_LIMIT_PER_LANE_CPM else 0
  let pna_merge_eff :=
    if 0 < PNA_MERGE_LIMIT_CPM then
      min pna_total_cpm PNA_MERGE_LIMIT_CPM / PNA_MERGE_LIMIT_CPM
    else 0
  let treat_eff :=
    if 0 < cell_lane_cpm then lane_after_cell / max cell_lane_cpm (1e-9 : ℚ) else 0
  let chg_min := changeover_minutes lanes
  { customer := row.customer
    commodity := row.commodity
    pallets := pallets
    cpp := cpp
    total_cases := total_cases
    lanes := lanes
    wpl := wpl
    gap_in := gap_in
    length_in := length_in
    cspd_fpm := cspd_fpm
    feed_per_lane_cpm := feed_per_lane_cpm
    pna_lane_cpm := pna_lane_cpm
    pna_total_cpm := pna_total_cpm
    cell_lane_cpm := cell_lane_cpm
    lane_after_cell := lane_after_cell
    post_cell_total := post_cell_total
    upstream_cap_cpm := upstream_cap_cpm
    sort_cap_cpm := sort_cap_cpm
    system_cap_cpm := system_cap_cpm
    system_cap_cph := system_cap_cph
    t_offload_min := t_offload_min
    t_process_min := t_process_min
    t_load_min := t_load_min
    t_cell_span_min := t_cell_span_min
    pna_eff := pna_eff
    pna_merge_eff := pna_merge_eff
    treat_eff := treat_eff
    chg_min := chg_min
    disp_t_offload := pyRound 1 t_offload_min
    disp_t_process := pyRound 1 t_process_min
    disp_t_load := pyRound 1 t_load_min }

/-- The loop at app.py lines 219-222: the rows of `out_df` are
`compute_order_row` applied to each order row in input order. -/
def order_rows (catalog : List CatalogRow) (sort_workers : ℤ)
    (orders : List OrderInput) : List OrderResult :=
  orders.map (compute_order_row catalog sort_workers)

/-! ### Timeline (app.py lines 225-245) -/

/-- One row of the timeline table. -/
structure TimelineEntry where
  order_index : ℕ
  customer : String
  start_min : ℚ
  finish_min : ℚ

/-- The body of the timeline loop: running index `idx` (0-based, stored
as idx+1) and running clock `t_clock`. Start and finish are stored
rounded to one decimal, the clock advances unrounded, and the order
duration is the sum of the three stored (already rounded) time fields. -/
def timeline_go (idx : ℕ) (t_clock : ℚ) : List OrderResult → List TimelineEntry
  | [] => []
  | r :: rest =>
    let t_start := t_clock
    let t_order := r.disp_t_offload + r.disp_t_process + r.disp_t_load
    let t_finish := t_start + t_order
    { order_index := idx + 1
      customer := r.customer
      start_min := pyRound 1 t_start
      finish_min := pyRound 1 t_finish }
      :: timeline_go (idx + 1) (t_finish + (r.chg_min : ℚ)) rest

/-- Embeds `timeline_records`: the timeline built from the per-order results,
clock starting at 0. -/
def timeline_records (results : List OrderResult) : List TimelineEntry :=
  timeline_go 0 0 results

/-- Embeds `total_runtime_min`: the finish of the last timeline entry,
0 when the timeline is empty. -/
def total_runtime_min (tl : List TimelineEntry) : ℚ :=
  match tl.getLast? with
  | some e => e.finish_min
  | none => 0

/-! ### Summary (app.py lines 248-255) -/

/-- Embeds `tot_pallets = int(orders["Pallets"].sum())`. -/
def tot_pallets (orders : List OrderInput) : ℤ :=
  (orders.map (fun o => o.pallets)).sum

/-- Embeds `tot_cases = int((orders["Pallets"] * orders["CasesPerPallet"]).sum())`. -/
def tot_cases (orders : List OrderInput) : ℤ :=
  (orders.map (fun o => o.pallets * o.casesPerPallet)).sum

/-- Embeds `len(orders)`. -/
def order_count (orders : List OrderInput) : ℕ :=
  orders.length

/-- A rational that is an integer multiple of 1/10 (one decimal place).
All values stored by the app with round(x, 1) are of this form, and on
such values round(x, 1) is the identity. -/
def Tenths (x : ℚ) : Prop := ∃ n : ℤ, x = (n : ℚ) / 10

/-! ### Concrete fixtures used to instantiate universally quantified
theorems (witnesses). -/

/-- A catalog whose single commodity has a fast cell speed, so its raw
cell rate exceeds the InchStore ceiling of 42. -/
def fastCatalog : List CatalogRow := [("Fast", 1, 100)]

/-- An order for the fast commodity. -/
def fastOrder : OrderInput :=
  { customer := "W"
    commodity := "Fast"
    pallets := 10
    casesPerPallet := 50
    inboundLanesUsed := 2
    workersPerLane := 1
    cellGap_in := 3 }

/-- A small sample order resolved through the catalog fallback. -/
def sampleOrder : OrderInput :=
  { customer := "A"
    commodity := "X"
    pallets := 1
    casesPerPallet := 5
    inboundLanesUsed := 1
    workersPerLane := 1
    cellGap_in := 3 }

/-- A second sample order. -/
def sampleOrder2 : OrderInput :=
  { customer := "B"
    commodity := "X"
    pallets := 2
    casesPerPallet := 3
    inboundLanesUsed := 3
    workersPerLane := 1
    cellGap_in := 3 }

/-- The default entry used with `List.getD` when indexing timelines in
theorem statements. -/
def defaultEntry : TimelineEntry :=
  { order_index := 0
    customer := ""
    start_min := 0
    finish_min := 0 }

/-- The default result record used with `List.getD` when indexing result
lists in theorem statements. -/
def defaultResult : OrderResult :=
  compute_order_row [] 0
    { customer := ""
      commodity := ""
      pallets := 0
      casesPerPallet := 0
      inboundLanesUsed := 0
      workersPerLane := 0
      cellGap_in := 0 }

end MHS

namespace MHS

/-! ### Helper lemmas about Python rounding -/

theorem pyRoundInt_intCast (n : ℤ) : pyRoundInt (n : ℚ) = n := by
  unfold pyRoundInt
  norm_num

theorem tenths_pyRound (x : ℚ) : Tenths (pyRound 1 x) := by
  exact ⟨pyRoundInt (x * 10 ^ 1), by unfold pyRound; norm_num⟩

theorem Tenths.pyRound_eq {x : ℚ} (h : Tenths x) : pyRound 1 x = x := by
  obtain ⟨n, rfl⟩ := h
  unfold pyRound
  have h10 : ((n : ℚ) / 10) * 10 ^ 1 = (n : ℚ) := by ring
  rw [h10, pyRoundInt_intCast]
  norm_num

theorem Tenths.add {x y : ℚ} (hx : Tenths x) (hy : Tenths y) : Tenths (x + y) := by
  obtain ⟨n, rfl⟩ := hx
  obtain ⟨m, rfl⟩ := hy
  exact ⟨n + m, by push_cast; ring⟩

theorem Tenths.intCast (n : ℤ) : Tenths (n : ℚ) :=
  ⟨10 * n, by push_cast; ring⟩

theorem Tenths.zero : Tenths (0 : ℚ) :=
  ⟨0, by norm_num⟩

theorem pyRoundInt_nonneg {x : ℚ} (hx : 0 ≤ x) : 0 ≤ pyRoundInt x := by
  have hf : (0 : ℤ) ≤ ⌊x⌋ := Int.floor_nonneg.mpr hx
  unfold pyRoundInt
  simp only []
  split
  · exact hf
  · split
    · omega
    · split
      · exact hf
      · omega

theorem pyRound_one_nonneg {x : ℚ} (hx : 0 ≤ x) : 0 ≤ pyRound 1 x := by
  unfold pyRound
  have : 0 ≤ pyRoundInt (x * 10 ^ 1) := pyRoundInt_nonneg (by positivity)
  positivity

/-! ### Timeline lemmas -/

theorem timeline_go_length (idx : ℕ) (clock : ℚ) (rs : List OrderResult) :
    (timeline_go idx clock rs).length = rs.length := by
  induction rs generalizing idx clock with
  | nil => rfl
  | cons r rest ih => simp [timeline_go, ih]

theorem timeline_go_spec (rs : List OrderResult)
    (hT : ∀ r ∈ rs, Tenths r.disp_t_offload ∧ Tenths r.disp_t_process ∧
      Tenths r.disp_t_load) :
    ∀ (idx : ℕ) (clock : ℚ), Tenths clock →
      ∀ (i : ℕ) (e : TimelineEntry) (r : OrderResult),
        (timeline_go idx clock rs)[i]? = some e → rs[i]? = some r →
        e.order_index = idx + i + 1 ∧
        e.customer = r.customer ∧
        e.finish_min = e.start_min +
          (r.disp_t_offload + r.disp_t_process + r.disp_t_load) ∧
        (i = 0 → e.start_min = clock) ∧
        ∀ f : TimelineEntry, (timeline_go idx clock rs)[i + 1]? = some f →
          f.start_min = e.finish_min + (r.chg_min : ℚ) := by
  induction rs with
  | nil =>
    intro idx clock _ i e r he _
    simp [timeline_go] at he
  | cons r0 rest ih =>
    intro idx clock hc i e r he hr
    have hT0 := hT r0 (List.mem_cons_self r0 rest)
    have hTrest : ∀ x ∈ rest, Tenths x.disp_t_offload ∧ Tenths x.disp_t_process ∧
        Tenths x.disp_t_load :=
      fun x hx => hT x (List.mem_cons_of_mem r0 hx)
    have hTD : Tenths (r0.disp_t_offload + r0.disp_t_process + r0.disp_t_load) :=
      (hT0.1.add hT0.2.1).add hT0.2.2
    have hTfin : Tenths (clock + (r0.disp_t_offload + r0.disp_t_process + r0.disp_t_load)) :=
      hc.add hTD
    have hTclock2 : Tenths
        (clock + (r0.disp_t_offload + r0.disp_t_process + r0.disp_t_load) +
          (r0.chg_min : ℚ)) :=
      hTfin.add (Tenths.intCast r0.chg_min)
    have hexp : timeline_go idx clock (r0 :: rest) =
        { order_index := idx + 1
          customer := r0.customer
          start_min := pyRound 1 clock
          finish_min := pyRound 1
            (clock + (r0.disp_t_offload + r0.disp_t_process + r0.disp_t_load)) } ::
          timeline_go (idx + 1)
            (clock + (r0.disp_t_offload + r0.disp_t_process + r0.disp_t_load) +
              (r0.chg_min : ℚ)) rest := rfl
    rw [hexp] at he ⊢
    cases i with
    | zero =>
      rw [List.getElem?_cons_zero] at he
      rw [List.getElem?_cons_zero] at hr
      injection he with he
      injection hr with hr
      subst he
      subst hr
      refine ⟨by simp, rfl, ?_, ?_, ?_⟩
      · show pyRound 1 (clock + _) = pyRound 1 clock + _
        rw [hc.pyRound_eq, hTfin.pyRound_eq]
      · intro _
        exact hc.pyRound_eq
      · intro f hf
        rw [List.getElem?_cons_succ] at hf
        cases rest with
        | nil => simp [timeline_go] at hf
        | cons r1 rest2 =>
          have hexp2 : timeline_go (idx + 1)
              (clock + (r0.disp_t_offload + r0.disp_t_process + r0.disp_t_load) +
                (r0.chg_min : ℚ)) (r1 :: rest2) =
              { order_index := idx + 1 + 1
                customer := r1.customer
                start_min := pyRound 1
                  (clock + (r0.disp_t_offload + r0.disp_t_process + r0.disp_t_load) +
                    (r0.chg_min : ℚ))
                finish_min := pyRound 1
                  (clock + (r0.disp_t_offload + r0.disp_t_process + r0.disp_t_load) +
                    (r0.chg_min : ℚ) +
                    (r1.disp_t_offload + r1.disp_t_process + r1.disp_t_load)) } ::
                timeline_go (idx + 1 + 1)
                  (clock + (r0.disp_t_offload + r0.disp_t_process + r0.disp_t_load) +
                    (r0.chg_min : ℚ) +
                    (r1.disp_t_offload + r1.disp_t_process + r1.disp_t_load) +
                    (r1.chg_min : ℚ)) rest2 := rfl
          rw [hexp2, List.getElem?_cons_zero] at hf
          injection hf with hf
          subst hf
          show pyRound 1 _ = pyRound 1 _ + _
          rw [hTclock2.pyRound_eq, hTfin.pyRound_eq]
    | succ i =>
      rw [List.getElem?_cons_succ] at he
      rw [List.getElem?_cons_succ] at hr
      obtain ⟨h1, h2, h3, h4, h5⟩ :=
        ih hTrest (idx + 1)
          (clock + (r0.disp_t_offload + r0.disp_t_process + r0.disp_t_load) +
            (r0.chg_min : ℚ)) hTclock2 i e r he hr
      refine ⟨by omega, h2, h3, ?_, ?_⟩
      · intro habs
        exact absurd habs (Nat.succ_ne_zero i)
      · intro f hf
        rw [List.getElem?_cons_succ] at hf
        exact h5 f hf

theorem timeline_records_spec (rs : List OrderResult)
    (hT : ∀ r ∈ rs, Tenths r.disp_t_offload ∧ Tenths r.disp_t_process ∧
      Tenths r.disp_t_load) (i : ℕ) (hi : i < rs.length) :
    ((timeline_records rs).getD i defaultEntry).order_index = i + 1 ∧
    ((timeline_records rs).getD i defaultEntry).customer =
      (rs.getD i defaultResult).customer ∧
    ((timeline_records rs).getD i defaultEntry).finish_min =
      ((timeline_records rs).getD i defaultEntry).start_min +
        ((rs.getD i defaultResult).disp_t_offload +
          (rs.getD i defaultResult).disp_t_process +
          (rs.getD i defaultResult).disp_t_load) ∧
    (i = 0 → ((timeline_records rs).getD i defaultEntry).start_min = 0) ∧
    (i + 1 < rs.length →
      ((timeline_records rs).getD (i + 1) defaultEntry).start_min =
        ((timeline_records rs).getD i defaultEntry).finish_min +
          ((rs.getD i defaultResult).chg_min : ℚ)) := by
  have hlen : (timeline_records rs).length = rs.length := timeline_go_length 0 0 rs
  have hi_tl : i < (timeline_records rs).length := by rw [hlen]; exact hi
  obtain ⟨e, he⟩ : ∃ e, (timeline_records rs)[i]? = some e :=
    ⟨_, List.getElem?_eq_getElem hi_tl⟩
  obtain ⟨r, hr⟩ : ∃ r, rs[i]? = some r := ⟨_, List.getElem?_eq_getElem hi⟩
  have hgetD_e : (timeline_records rs).getD i defaultEntry = e := by
    rw [List.getD_eq_getElem?_getD, he]
    rfl
  have hgetD_r : rs.getD i defaultResult = r := by
    rw [List.getD_eq_getElem?_getD, hr]
    rfl
  obtain ⟨h1, h2, h3, h4, h5⟩ := timeline_go_spec rs hT 0 0 Tenths.zero i e r he hr
  rw [hgetD_e, hgetD_r]
  refine ⟨by omega, h2, h3, h4, fun hnext => ?_⟩
  have hi1_tl : i + 1 < (timeline_records rs).length := by rw [hlen]; exact hnext
  obtain ⟨f, hf⟩ : ∃ f, (timeline_records rs)[i + 1]? = some f :=
    ⟨_, List.getElem?_eq_getElem hi1_tl⟩
  have hgetD_f : (timeline_records rs).getD (i + 1) defaultEntry = f := by
    rw [List.getD_eq_getElem?_getD, hf]
    rfl
  rw [hgetD_f]
  exact h5 f hf

theorem order_rows_tenths (catalog : List CatalogRow) (sort_workers : ℤ)
    (orders : List OrderInput) :
    ∀ r ∈ order_rows catalog sort_workers orders,
      Tenths r.disp_t_offload ∧ Tenths r.disp_t_process ∧ Tenths r.disp_t_load := by
  intro r hr
  obtain ⟨o, _, rfl⟩ := List.mem_map.mp hr
  exact ⟨tenths_pyRound _, tenths_pyRound _, tenths_pyRound _⟩

theorem changeover_minutes_pos (n : ℤ) : 0 < changeover_minutes n := by
  unfold changeover_minutes
  split
  · decide
  · split
    · decide
    · decide

theorem compute_disp_nonneg (catalog : List CatalogRow) (sort_workers : ℤ)
    {o : OrderInput} (hp : 0 ≤ o.pallets) (hc : 0 ≤ o.casesPerPallet) :
    0 ≤ (compute_order_row catalog sort_workers o).disp_t_offload ∧
    0 ≤ (compute_order_row catalog sort_workers o).disp_t_process ∧
    0 ≤ (compute_order_row catalog sort_workers o).disp_t_load := by
  have hpq : (0 : ℚ) ≤ (o.pallets : ℚ) := by exact_mod_cast hp
  have hden : (0 : ℚ) ≤ FORKLIFT_PALLETS_PER_MIN := by
    norm_num [FORKLIFT_PALLETS_PER_MIN]
  refine ⟨pyRound_one_nonneg ?_, pyRound_one_nonneg ?_, pyRound_one_nonneg ?_⟩
  · exact div_nonneg hpq hden
  · apply div_nonneg
    · exact_mod_cast mul_nonneg hp hc
    · exact le_trans (by norm_num) (le_max_right _ (1e-9 : ℚ))
  · exact div_nonneg hpq hden

/-! ### Dictionary lookup lemmas -/

theorem find?_reverse_of_keys_nodup {pairs : List (String × ℚ)} {key : String}
    {v : ℚ} (hnd : (pairs.map Prod.fst).Nodup) (hm : (key, v) ∈ pairs) :
    pairs.reverse.find? (fun p => p.1 == key) = some (key, v) := by
  induction pairs with
  | nil => simp at hm
  | cons hd tl ih =>
    rw [List.map_cons] at hnd
    have hnd2 := List.nodup_cons.mp hnd
    rw [List.reverse_cons, List.find?_append]
    rcases List.mem_cons.mp hm with heq | hmem
    · subst heq
      have hkey : key ∉ tl.map Prod.fst := hnd2.1
      have hnone : tl.reverse.find? (fun p => p.1 == key) = none := by
        rw [List.find?_eq_none]
        intro x hx
        have hx1 : x.1 ∈ tl.map Prod.fst :=
          List.mem_map.mpr ⟨x, List.mem_reverse.mp hx, rfl⟩
        simp only [beq_iff_eq]
        intro hcontra
        exact hkey (hcontra ▸ hx1)
      rw [hnone]
      simp
    · rw [ih hnd2.2 hmem]
      simp

theorem dictGet_eq_of_mem {pairs : List (String × ℚ)} {key : String} {v d : ℚ}
    (hnd : (pairs.map Prod.fst).Nodup) (hm : (key, v) ∈ pairs) :
    dictGet pairs key d = v := by
  unfold dictGet
  rw [find?_reverse_of_keys_nodup hnd hm]

theorem dictGet_eq_default {pairs : List (String × ℚ)} {key : String} {d : ℚ}
    (h : ∀ p ∈ pairs, p.1 ≠ key) : dictGet pairs key d = d := by
  unfold dictGet
  have hnone : pairs.reverse.find? (fun p => p.1 == key) = none := by
    rw [List.find?_eq_none]
    intro x hx
    simpa using h x (List.mem_reverse.mp hx)
  rw [hnone]

/-! ### Claim theorems -/

/-- C1: for every order row (with its commodity resolved to a box length
and a cell speed by the catalog lookup with fallbacks 22.5 and 13.0) and
every sort_workers value, the system bottleneck computed by
`compute_order_row` equals
min( min( lanes*min(workers_per_lane*12, 19),
          lanes*min(cell_rate_per_lane(speed, length, gap), 42), 40 ),
     sort_workers*5 ),
and the reported throughput in cases/hour is that bottleneck times 60. -/
theorem claim_C1_system_bottleneck (catalog : List CatalogRow)
    (sort_workers : ℤ) (row : OrderInput) :
    (compute_order_row catalog sort_workers row).system_cap_cpm =
      min
        (min ((row.inboundLanesUsed : ℚ) * min ((row.workersPerLane : ℚ) * 12) 19)
          (min ((row.inboundLanesUsed : ℚ) *
            min (cell_rate_per_lane_cpm
                (dictGet (comm_to_cspd catalog) row.commodity 13.0)
                (dictGet (comm_to_len catalog) row.commodity 22.5)
                row.cellGap_in) 42) 40))
        ((sort_workers : ℚ) * 5) ∧
    (compute_order_row catalog sort_workers row).system_cap_cph =
      (compute_order_row catalog sort_workers row).system_cap_cpm * 60 :=
  ⟨rfl, rfl⟩

/-- C3: cell_rate_per_lane floors the gap at 3.0, computes
feet_per_case = (box_length + gap)/12, returns 0 when feet_per_case ≤ 0
and speed/feet_per_case otherwise; in particular at (13.0, 22.5, 1.0)
the floored gap of 3.0 gives 13.0 / 2.125. -/
theorem claim_C3_cell_rate :
    (∀ s l g : ℚ, cell_rate_per_lane_cpm s l g =
      if (l + max g 3) / 12 ≤ 0 then 0 else s / ((l + max g 3) / 12)) ∧
    cell_rate_per_lane_cpm 13 22.5 1 = 13 / 2.125 := by
  constructor
  · intro s l g
    rfl
  · norm_num [cell_rate_per_lane_cpm, MIN_CELL_GAP_IN]

/-- C5: for every order input, whatever the lane count, workers per
lane, sort workers and commodity data, the computed system bottleneck is
at most 40 cases per minute (the global merge ceiling). -/
theorem claim_C5_bottleneck_le_40 (catalog : List CatalogRow)
    (sort_workers : ℤ) (row : OrderInput) :
    (compute_order_row catalog sort_workers row).system_cap_cpm ≤ 40 :=
  le_trans (min_le_left _ _) (le_trans (min_le_right _ _) (min_le_right _ _))

/-- C6: changeover_minutes is the three-band step function on the lane
count: 2 for lanes ≤ 2, 7 for lanes ≥ 4, 4 for exactly 3 lanes, with
the five listed concrete values. -/
theorem claim_C6_changeover :
    (∀ n : ℤ, n ≤ 2 → changeover_minutes n = 2) ∧
    (∀ n : ℤ, 4 ≤ n → changeover_minutes n = 7) ∧
    changeover_minutes 3 = 4 ∧ changeover_minutes 1 = 2 ∧
    changeover_minutes 2 = 2 ∧ changeover_minutes 4 = 7 ∧
    changeover_minutes 10 = 7 := by
  refine ⟨?_, ?_, by decide, by decide, by decide, by decide, by decide⟩
  · intro n h
    simp [changeover_minutes, h]
  · intro n h
    have h2 : ¬ n ≤ 2 := by omega
    simp [changeover_minutes, h2, h]

/-- Witness for C6: the band implications instantiated at lanes 0 and 5. -/
theorem claim_C6_changeover_witness :
    changeover_minutes 0 = 2 ∧ changeover_minutes 5 = 7 :=
  ⟨claim_C6_changeover.1 0 (by decide), claim_C6_changeover.2.1 5 (by decide)⟩

/-- C9: on the processing-time, cell-span and treatment-efficiency paths
the denominator of every division is floored with max(·, 1e-9), and each such
denominator is strictly positive, so no division by zero occurs and the
resulting values are finite rationals. -/
theorem claim_C9_epsilon_guards (catalog : List CatalogRow)
    (sort_workers : ℤ) (row : OrderInput) :
    (compute_order_row catalog sort_workers row).t_process_min =
      (compute_order_row catalog sort_workers row).total_cases /
        max (compute_order_row catalog sort_workers row).system_cap_cpm (1e-9 : ℚ) ∧
    (0 : ℚ) < max (compute_order_row catalog sort_workers row).system_cap_cpm (1e-9 : ℚ) ∧
    (compute_order_row catalog sort_workers row).t_cell_span_min =
      (compute_order_row catalog sort_workers row).total_cases /
        max (min (((compute_order_row catalog sort_workers row).lanes : ℚ) *
          (compute_order_row catalog sort_workers row).cell_lane_cpm) 40) (1e-9 : ℚ) ∧
    (0 : ℚ) < max (min (((compute_order_row catalog sort_workers row).lanes : ℚ) *
      (compute_order_row catalog sort_workers row).cell_lane_cpm) 40) (1e-9 : ℚ) ∧
    (compute_order_row catalog sort_workers row).treat_eff =
      (if 0 < (compute_order_row catalog sort_workers row).cell_lane_cpm then
        (compute_order_row catalog sort_workers row).lane_after_cell /
          max (compute_order_row catalog sort_workers row).cell_lane_cpm (1e-9 : ℚ)
      else 0) ∧
    (0 : ℚ) < max (compute_order_row catalog sort_workers row).cell_lane_cpm (1e-9 : ℚ) := by
  have heps : (0 : ℚ) < (1e-9 : ℚ) := by norm_num
  exact ⟨rfl, lt_of_lt_of_le heps (le_max_right _ _), rfl,
    lt_of_lt_of_le heps (le_max_right _ _), rfl,
    lt_of_lt_of_le heps (le_max_right _ _)⟩

/-- C4: the cell-span time equals
total_cases / max(min(lanes * cell_lane_rate, 40), 1e-9) where
cell_lane_rate is the raw (uncapped) per-lane cell rate, not the
InchStore-capped rate used for the bottleneck; on the fast commodity the
two rates really differ (300 vs 42). -/
theorem claim_C4_cell_span :
    (∀ (catalog : List CatalogRow) (sort_workers : ℤ) (row : OrderInput),
      (compute_order_row catalog sort_workers row).t_cell_span_min =
        ((row.pallets * row.casesPerPallet : ℤ) : ℚ) /
          max (min ((row.inboundLanesUsed : ℚ) *
            cell_rate_per_lane_cpm
              (dictGet (comm_to_cspd catalog) row.commodity 13.0)
              (dictGet (comm_to_len catalog) row.commodity 22.5)
              row.cellGap_in) 40) (1e-9 : ℚ)) ∧
    (compute_order_row fastCatalog 6 fastOrder).cell_lane_cpm = 300 ∧
    (compute_order_row fastCatalog 6 fastOrder).lane_after_cell = 42 ∧
    (compute_order_row fastCatalog 6 fastOrder).lane_after_cell ≠
      (compute_order_row fastCatalog 6 fastOrder).cell_lane_cpm := by
  have hproj : (compute_order_row fastCatalog 6 fastOrder).cell_lane_cpm =
      cell_rate_per_lane_cpm
        (dictGet (comm_to_cspd fastCatalog) fastOrder.commodity 13.0)
        (dictGet (comm_to_len fastCatalog) fastOrder.commodity 22.5)
        fastOrder.cellGap_in := rfl
  have hspd : dictGet (comm_to_cspd fastCatalog) fastOrder.commodity 13.0 = 100 := by
    simp [dictGet, comm_to_cspd, fastCatalog, fastOrder]
  have hlen : dictGet (comm_to_len fastCatalog) fastOrder.commodity 22.5 = 1 := by
    simp [dictGet, comm_to_len, fastCatalog, fastOrder]
  have hcell : (compute_order_row fastCatalog 6 fastOrder).cell_lane_cpm = 300 := by
    rw [hproj, hspd, hlen]
    norm_num [cell_rate_per_lane_cpm, MIN_CELL_GAP_IN, fastOrder]
  have hcap : (compute_order_row fastCatalog 6 fastOrder).lane_after_cell =
      min (compute_order_row fastCatalog 6 fastOrder).cell_lane_cpm 42 := rfl
  refine ⟨fun catalog sort_workers row => rfl, hcell, ?_, ?_⟩
  · rw [hcap, hcell]
    norm_num
  · rw [hcap, hcell]
    norm_num

/-- C7: an order whose commodity name is absent from the catalog is
silently resolved to the fallback (22.5, 13.0) — `compute_order_row` is
a total function, so evaluation always completes and never raises — and
an order whose name is present (names being unique keys) resolves to
the length and speed of that entry. -/
theorem claim_C7_catalog_fallback :
    (∀ (catalog : List CatalogRow) (sort_workers : ℤ) (row : OrderInput),
      (∀ c ∈ catalog, c.1 ≠ row.commodity) →
        (compute_order_row catalog sort_workers row).length_in = 22.5 ∧
        (compute_order_row catalog sort_workers row).cspd_fpm = 13.0) ∧
    (∀ (catalog : List CatalogRow) (sort_workers : ℤ) (row : OrderInput) (L S : ℚ),
      (catalog.map (fun c => c.1)).Nodup →
      (row.commodity, L, S) ∈ catalog →
        (compute_order_row catalog sort_workers row).length_in = L ∧
        (compute_order_row catalog sort_workers row).cspd_fpm = S) := by
  constructor
  · intro catalog sort_workers row h
    have hl : (compute_order_row catalog sort_workers row).length_in =
        dictGet (comm_to_len catalog) row.commodity 22.5 := rfl
    have hs : (compute_order_row catalog sort_workers row).cspd_fpm =
        dictGet (comm_to_cspd catalog) row.commodity 13.0 := rfl
    rw [hl, hs]
    constructor
    · apply dictGet_eq_default
      intro p hp
      obtain ⟨c, hc, rfl⟩ := List.mem_map.mp hp
      exact h c hc
    · apply dictGet_eq_default
      intro p hp
      obtain ⟨c, hc, rfl⟩ := List.mem_map.mp hp
      exact h c hc
  · intro catalog sort_workers row L S hnd hm
    have hl : (compute_order_row catalog sort_workers row).length_in =
        dictGet (comm_to_len catalog) row.commodity 22.5 := rfl
    have hs : (compute_order_row catalog sort_workers row).cspd_fpm =
        dictGet (comm_to_cspd catalog) row.commodity 13.0 := rfl
    have hndl : ((comm_to_len catalog).map Prod.fst).Nodup := by
      simpa [comm_to_len, List.map_map, Function.comp] using hnd
    have hnds : ((comm_to_cspd catalog).map Prod.fst).Nodup := by
      simpa [comm_to_cspd, List.map_map, Function.comp] using hnd
    have hml : (row.commodity, L) ∈ comm_to_len catalog :=
      List.mem_map.mpr ⟨(row.commodity, L, S), hm, rfl⟩
    have hms : (row.commodity, S) ∈ comm_to_cspd catalog :=
      List.mem_map.mpr ⟨(row.commodity, L, S), hm, rfl⟩
    rw [hl, hs]
    exact ⟨dictGet_eq_of_mem hndl hml, dictGet_eq_of_mem hnds hms⟩

/-- Witness for C7: with the one-entry catalog [("Fast", 1, 100)], the
order for absent commodity "X" resolves to the fallback (22.5, 13.0) and
the order for "Fast" resolves to (1, 100). -/
theorem claim_C7_catalog_fallback_witness :
    ((compute_order_row fastCatalog 6 sampleOrder).length_in = 22.5 ∧
      (compute_order_row fastCatalog 6 sampleOrder).cspd_fpm = 13.0) ∧
    ((compute_order_row fastCatalog 6 fastOrder).length_in = 1 ∧
      (compute_order_row fastCatalog 6 fastOrder).cspd_fpm = 100) :=
  ⟨claim_C7_catalog_fallback.1 fastCatalog 6 sampleOrder
      (by simp [fastCatalog, sampleOrder]),
    claim_C7_catalog_fallback.2 fastCatalog 6 fastOrder 1 100
      (by simp [fastCatalog]) (by simp [fastCatalog, fastOrder])⟩

/-- C2: for a non-empty order sequence the schedule has one entry per
order in input order (same length, matching customer, index i+1); entry
0 starts at 0; the finish of each entry is its start plus the stored
offload + processing + load times of the order (the cell-span time is
not part of the duration); and the start of each next entry is the
previous finish plus the changeover minutes of the previous order. -/
theorem claim_C2_schedule (catalog : List CatalogRow) (sort_workers : ℤ)
    (orders : List OrderInput) (hne : orders ≠ []) :
    (timeline_records (order_rows catalog sort_workers orders)).length =
      orders.length ∧
    ((timeline_records (order_rows catalog sort_workers orders)).getD 0
      defaultEntry).start_min = 0 ∧
    (∀ i, i < orders.length →
      ((timeline_records (order_rows catalog sort_workers orders)).getD i
        defaultEntry).order_index = i + 1 ∧
      ((timeline_records (order_rows catalog sort_workers orders)).getD i
        defaultEntry).customer =
        ((order_rows catalog sort_workers orders).getD i defaultResult).customer ∧
      ((timeline_records (order_rows catalog sort_workers orders)).getD i
        defaultEntry).finish_min =
        ((timeline_records (order_rows catalog sort_workers orders)).getD i
          defaultEntry).start_min +
          (((order_rows catalog sort_workers orders).getD i defaultResult).disp_t_offload +
            ((order_rows catalog sort_workers orders).getD i defaultResult).disp_t_process +
            ((order_rows catalog sort_workers orders).getD i defaultResult).disp_t_load)) ∧
    (∀ i, i + 1 < orders.length →
      ((timeline_records (order_rows catalog sort_workers orders)).getD (i + 1)
        defaultEntry).start_min =
        ((timeline_records (order_rows catalog sort_workers orders)).getD i
          defaultEntry).finish_min +
          (((order_rows catalog sort_workers orders).getD i defaultResult).chg_min : ℚ)) := by
  have hlen_rs : (order_rows catalog sort_workers orders).length = orders.length :=
    List.length_map _ _
  have hT := order_rows_tenths catalog sort_workers orders
  refine ⟨(timeline_go_length 0 0 _).trans hlen_rs, ?_, ?_, ?_⟩
  · have h0 : 0 < (order_rows catalog sort_workers orders).length := by
      rw [hlen_rs]
      exact List.length_pos.mpr hne
    exact (timeline_records_spec _ hT 0 h0).2.2.2.1 rfl
  · intro i hi
    have hirs : i < (order_rows catalog sort_workers orders).length := by
      rw [hlen_rs]
      exact hi
    obtain ⟨h1, h2, h3, _, _⟩ := timeline_records_spec _ hT i hirs
    exact ⟨h1, h2, h3⟩
  · intro i hi
    have hirs : i < (order_rows catalog sort_workers orders).length := by
      rw [hlen_rs]
      omega
    have hi1 : i + 1 < (order_rows catalog sort_workers orders).length := by
      rw [hlen_rs]
      exact hi
    exact (timeline_records_spec _ hT i hirs).2.2.2.2 hi1

/-- Witness for C2: the schedule of two concrete orders has two entries,
entry 0 starts at 0, and entry 1 starts at the finish of entry 0 plus
the changeover of the first order. -/
theorem claim_C2_schedule_witness :
    (timeline_records (order_rows [] 1 [sampleOrder, sampleOrder2])).length =
      ([sampleOrder, sampleOrder2] : List OrderInput).length ∧
    ((timeline_records (order_rows [] 1 [sampleOrder, sampleOrder2])).getD 0
      defaultEntry).start_min = 0 ∧
    ((timeline_records (order_rows [] 1 [sampleOrder, sampleOrder2])).getD 1
      defaultEntry).start_min =
      ((timeline_records (order_rows [] 1 [sampleOrder, sampleOrder2])).getD 0
        defaultEntry).finish_min +
        (((order_rows [] 1 [sampleOrder, sampleOrder2]).getD 0 defaultResult).chg_min : ℚ) :=
  ⟨(claim_C2_schedule [] 1 [sampleOrder, sampleOrder2] (List.cons_ne_nil _ _)).1,
    (claim_C2_schedule [] 1 [sampleOrder, sampleOrder2] (List.cons_ne_nil _ _)).2.1,
    (claim_C2_schedule [] 1 [sampleOrder, sampleOrder2] (List.cons_ne_nil _ _)).2.2.2
      0 (by decide)⟩

/-- C10: when every order has non-negative pallets and cases per pallet,
the timeline is monotone: each entry starts no later than it finishes,
and each entry finishes no later than the next entry starts (changeover
minutes are strictly positive, so the clock never moves backwards). -/
theorem claim_C10_timeline_monotone (catalog : List CatalogRow)
    (sort_workers : ℤ) (orders : List OrderInput)
    (hok : ∀ o ∈ orders, 0 ≤ o.pallets ∧ 0 ≤ o.casesPerPallet) :
    (∀ i, i < orders.length →
      ((timeline_records (order_rows catalog sort_workers orders)).getD i
        defaultEntry).start_min ≤
        ((timeline_records (order_rows catalog sort_workers orders)).getD i
          defaultEntry).finish_min) ∧
    (∀ i, i + 1 < orders.length →
      ((timeline_records (order_rows catalog sort_workers orders)).getD i
        defaultEntry).finish_min ≤
        ((timeline_records (order_rows catalog sort_workers orders)).getD (i + 1)
          defaultEntry).start_min) := by
  have hlen_rs : (order_rows catalog sort_workers orders).length = orders.length :=
    List.length_map _ _
  have hT := order_rows_tenths catalog sort_workers orders
  have hmemD : ∀ i, i < (order_rows catalog sort_workers orders).length →
      (order_rows catalog sort_workers orders).getD i defaultResult ∈
        order_rows catalog sort_workers orders := by
    intro i hi
    rw [List.getD_eq_getElem?_getD, List.getElem?_eq_getElem hi]
    exact List.getElem_mem hi
  have hnn : ∀ i, i < (order_rows catalog sort_workers orders).length →
      0 ≤ ((order_rows catalog sort_workers orders).getD i defaultResult).disp_t_offload ∧
      0 ≤ ((order_rows catalog sort_workers orders).getD i defaultResult).disp_t_process ∧
      0 ≤ ((order_rows catalog sort_workers orders).getD i defaultResult).disp_t_load := by
    intro i hi
    obtain ⟨o, ho, heq⟩ := List.mem_map.mp (hmemD i hi)
    rw [← heq]
    exact compute_disp_nonneg catalog sort_workers (hok o ho).1 (hok o ho).2
  have hchg : ∀ i, i < (order_rows catalog sort_workers orders).length →
      0 < ((order_rows catalog sort_workers orders).getD i defaultResult).chg_min := by
    intro i hi
    obtain ⟨o, _, heq⟩ := List.mem_map.mp (hmemD i hi)
    rw [← heq]
    exact changeover_minutes_pos _
  constructor
  · intro i hi
    have hirs : i < (order_rows catalog sort_workers orders).length := by
      rw [hlen_rs]
      exact hi
    obtain ⟨_, _, h3, _, _⟩ := timeline_records_spec _ hT i hirs
    obtain ⟨ho1, ho2, ho3⟩ := hnn i hirs
    rw [h3]
    linarith
  · intro i hi
    have hirs : i < (order_rows catalog sort_workers orders).length := by
      rw [hlen_rs]
      omega
    have hi1 : i + 1 < (order_rows catalog sort_workers orders).length := by
      rw [hlen_rs]
      exact hi
    have hstep := (timeline_records_spec _ hT i hirs).2.2.2.2 hi1
    have hc := hchg i hirs
    have hcq : (0 : ℚ) <
        (((order_rows catalog sort_workers orders).getD i defaultResult).chg_min : ℚ) := by
      exact_mod_cast hc
    rw [hstep]
    linarith

/-- Witness for C10: the concrete two-order timeline satisfies both
monotonicity inequalities at index 0. -/
theorem claim_C10_timeline_monotone_witness :
    ((timeline_records (order_rows [] 1 [sampleOrder, sampleOrder2])).getD 0
      defaultEntry).start_min ≤
      ((timeline_records (order_rows [] 1 [sampleOrder, sampleOrder2])).getD 0
        defaultEntry).finish_min ∧
    ((timeline_records (order_rows [] 1 [sampleOrder, sampleOrder2])).getD 0
      defaultEntry).finish_min ≤
      ((timeline_records (order_rows [] 1 [sampleOrder, sampleOrder2])).getD 1
        defaultEntry).start_min :=
  ⟨(claim_C10_timeline_monotone [] 1 [sampleOrder, sampleOrder2]
        (by intro o ho; fin_cases ho <;> decide)).1 0 (by decide),
    (claim_C10_timeline_monotone [] 1 [sampleOrder, sampleOrder2]
        (by intro o ho; fin_cases ho <;> decide)).2 0 (by decide)⟩

/-- C8: an empty order sequence gives total pallets 0, total cases 0,
order count 0 and total elapsed 0 with no error; for a non-empty
sequence the total elapsed time is the finish time of the last timeline
entry, so the trailing changeover of the final order is excluded. -/
theorem claim_C8_summary (catalog : List CatalogRow) (sort_workers : ℤ) :
    (tot_pallets [] = 0 ∧ tot_cases [] = 0 ∧ order_count [] = 0 ∧
      total_runtime_min (timeline_records (order_rows catalog sort_workers [])) = 0) ∧
    (∀ orders : List OrderInput, orders ≠ [] →
      ∃ h : timeline_records (order_rows catalog sort_workers orders) ≠ [],
        total_runtime_min (timeline_records (order_rows catalog sort_workers orders)) =
          ((timeline_records (order_rows catalog sort_workers orders)).getLast h).finish_min) := by
  refine ⟨⟨rfl, rfl, rfl, rfl⟩, ?_⟩
  intro orders hne
  have hlen : (timeline_records (order_rows catalog sort_workers orders)).length =
      orders.length :=
    (timeline_go_length 0 0 _).trans (List.length_map _ _)
  have hne2 : timeline_records (order_rows catalog sort_workers orders) ≠ [] := by
    intro hnil
    apply hne
    rw [hnil] at hlen
    exact (List.length_eq_zero.mp hlen.symm)
  refine ⟨hne2, ?_⟩
  show (match (timeline_records (order_rows catalog sort_workers orders)).getLast? with
    | some e => e.finish_min
    | none => 0) = _
  rw [List.getLast?_eq_getLast _ hne2]

/-- Witness for C8: the one-order timeline is non-empty and its total
runtime is the finish of its last entry. -/
theorem claim_C8_summary_witness :
    ∃ h : timeline_records (order_rows [] 1 [sampleOrder]) ≠ [],
      total_runtime_min (timeline_records (order_rows [] 1 [sampleOrder])) =
        ((timeline_records (order_rows [] 1 [sampleOrder])).getLast h).finish_min :=
  (claim_C8_summary [] 1).2 [sampleOrder] (List.cons_ne_nil _ _)

end MHS

